import Mathlib

/-!
Verification development for the EZ-Game-search place-details proxy.

The repository contains three batching handler variants:
 - `src/unnamed/part_000`  : validates identifiers through
   `placeIds.filter(id => !isNaN(parseInt(id)))`, batches by 50, accumulates
   with an `Array.isArray` branch, and returns 500 when every batch failed;
 - `src/api/get-place-details.js` : no identifier filtering, batches by 50,
   accumulates with an unconditional `allResults.concat(data)`, and always
   returns 200 once dispatch ran (message `Some batches failed.`);
 - `src/server.js` : like the api variant but with the longer message
   `Some batches failed to fetch data from Roblox API.`.

The definitions below embed, per variant: the input normalization
(truthiness check, comma split with trim, optional `parseInt` filter), the
batch-slicing loop (`for (let i = 0; i < ids.length; i += BATCH_SIZE)` with
`slice(i, i + BATCH_SIZE)`), the per-batch dispatch with its try/catch and
`continue` error handling, and the final status/body decision.  The upstream
fetch is abstracted as an oracle mapping the session token and the batch to
the observed upstream outcome; CORS and HTTP-method handling are outside the
modeled core, as in the specification.
-/

namespace EZGameSearch

/-! ### JavaScript string primitives used by the handlers -/

/-- Decimal digit test, mirroring the digits accepted by `parseInt` in radix 10. -/
def isDecDigit (c : Char) : Bool := '0' ≤ c && c ≤ '9'

/-- Hexadecimal digit test, mirroring the digits accepted by `parseInt` in radix 16. -/
def isHexDigitChar (c : Char) : Bool :=
  isDecDigit c || ('a' ≤ c && c ≤ 'f') || ('A' ≤ c && c ≤ 'F')

/-- Numeric value of a digit character accepted by `parseInt`. -/
def digitValue (c : Char) : Nat :=
  if isDecDigit c then c.toNat - '0'.toNat
  else if 'a' ≤ c && c ≤ 'f' then c.toNat - 'a'.toNat + 10
  else c.toNat - 'A'.toNat + 10

/-- Digit test for the radix chosen by `parseInt` (only 10 and 16 arise). -/
def radixDigit (radix : Nat) (c : Char) : Bool :=
  if radix = 16 then isHexDigitChar c else isDecDigit c

/-- Drop one leading sign character, as `parseInt` does after skipping whitespace. -/
def stripSign : List Char → List Char
  | '-' :: rest => rest
  | '+' :: rest => rest
  | cs => cs

/-- Sign factor extracted by `parseInt` from an optional leading sign character. -/
def signOf : List Char → Int
  | '-' :: _ => -1
  | _ => 1

/-- Radix detection of `parseInt` with no explicit radix argument: a `0x`/`0X`
prefixed string is read in radix 16 with the marker removed, anything else in
radix 10. -/
def stripRadix : List Char → Nat × List Char
  | '0' :: 'x' :: rest => (16, rest)
  | '0' :: 'X' :: rest => (16, rest)
  | cs => (10, cs)

/-- Model of JavaScript `parseInt(s)` (no radix argument): skip leading
whitespace, read an optional sign, detect the radix, then read the longest
prefix of digits of that radix; `none` models `NaN` (no digits at all). -/
def jsParseInt (s : String) : Option Int :=
  let ws := s.toList.dropWhile Char.isWhitespace
  let rc := stripRadix (stripSign ws)
  let ds := rc.2.takeWhile (radixDigit rc.1)
  if ds = [] then none
  else some (signOf ws * ((ds.foldl (fun a c => a * rc.1 + digitValue c) 0 : Nat) : Int))

/-- Model of JavaScript `String.prototype.trim`. -/
def jsTrim (s : String) : String :=
  ⟨((s.toList.dropWhile Char.isWhitespace).reverse.dropWhile Char.isWhitespace).reverse⟩

/-- Comma splitting on the character list: a comma closes the current piece
and opens a new one, so the empty string yields `[[]]` and separators at the
ends yield empty pieces, exactly as JavaScript `split(',')` does. -/
def splitComma : List Char → List (List Char)
  | [] => [[]]
  | c :: rest =>
    if c = ',' then [] :: splitComma rest
    else
      match splitComma rest with
      | [] => [[c]]
      | w :: ws => (c :: w) :: ws

/-- Model of JavaScript `s.split(',')`. -/
def jsSplitComma (s : String) : List String :=
  (splitComma s.toList).map (fun cs => ⟨cs⟩)

/-- The identifier filter of `part_000`:
`placeIds.filter(id => !isNaN(parseInt(id)))`. -/
def validPlaceIds (placeIds : List String) : List String :=
  placeIds.filter (fun id => (jsParseInt id).isSome)

/-- Strict integer-literal predicate: an optional leading `+` or `-` followed
by base-10 digits and no other content.  This is the parse format asserted by
the specification for elements surviving the filter. -/
def strictIntLiteral (s : String) : Bool :=
  match s.toList with
  | [] => false
  | c :: rest =>
    if c = '+' || c = '-' then !rest.isEmpty && rest.all isDecDigit
    else (c :: rest).all isDecDigit

/-- Structural characterization of the strings `parseInt` accepts: after
optional leading whitespace and one optional sign, the string must begin with
a digit of the detected radix (a decimal digit, or `0x`/`0X` followed by a
hexadecimal digit). -/
def startsAsInt (s : String) : Bool :=
  let rc := stripRadix (stripSign (s.toList.dropWhile Char.isWhitespace))
  match rc.2 with
  | [] => false
  | c :: _ => radixDigit rc.1 c

/-! ### Batch partitioning

The handlers slice with `for (let i = 0; i < ids.length; i += BATCH_SIZE)`
and `ids.slice(i, i + BATCH_SIZE)`; the loop therefore visits exactly the
successive 50-element chunks of the identifier list.  `chunksGo` carries a
structural fuel so that the definition computes by kernel reduction; the fuel
`l.length` always suffices because each iteration consumes at least one
element. -/

/-- The batch size constant of all three handlers. -/
def BATCH_SIZE : Nat := 50

/-- Fuel-driven chunking; with fuel at least `l.length` it produces the
successive `BATCH_SIZE` slices of `l`. -/
def chunksGo {α : Type} : Nat → List α → List (List α)
  | _, [] => []
  | 0, _ :: _ => []
  | fuel + 1, a :: t => ((a :: t).take BATCH_SIZE) :: chunksGo fuel ((a :: t).drop BATCH_SIZE)

/-- The batch partition produced by the slicing loop. -/
def chunks {α : Type} (l : List α) : List (List α) := chunksGo l.length l

/-! ### Upstream dispatch -/

/-- Parsed JSON body of a 2xx upstream response: the upstream either answers
with an array of place-detail records or with a single record. -/
inductive Body (α : Type) where
  | arr (itemsList : List α)
  | single (item : α)
deriving DecidableEq

/-- Observed outcome of one upstream fetch: parsed 2xx body, non-2xx response
with its status line and raw text, or a thrown transport error. -/
inductive UpResp (α : Type) where
  | ok (body : Body α)
  | httpErr (status : Nat) (statusText : String) (details : String)
  | transErr (msg : String)
deriving DecidableEq

/-- One entry of the `errors` accumulator, as pushed by the handlers. -/
structure Failure where
  batchIndex : Nat
  status : Nat
  statusText : String
  details : String
deriving DecidableEq

/-- Success accumulation of `part_000`:
`Array.isArray(data) ? (allResults = allResults.concat(data)) : allResults.push(data)`. -/
def accumBranch {α : Type} (allResults : List α) (data : Body α) : List α :=
  match data with
  | .arr l => allResults ++ l
  | .single r => allResults.concat r

/-- Success accumulation of `get-place-details.js` and `server.js`:
`allResults = allResults.concat(data)`, with JavaScript `concat` semantics —
an array argument contributes its elements, a non-array argument is appended
as a single element. -/
def jsConcat {α : Type} (allResults : List α) (data : Body α) : List α :=
  match data with
  | .arr l => allResults ++ l
  | .single r => allResults ++ [r]

/-- Result of the dispatch loop: the `allResults` and `errors` accumulators
plus the trace of batches actually sent upstream. -/
structure DispatchResult (α : Type) where
  allResults : List α
  errors : List Failure
  calls : List (List String)
deriving DecidableEq

/-- The dispatch loop body, iterated over the batch partition while tracking
the loop offset `i`.  `!robloxResponse.ok` pushes a failure with
`batchIndex: i` and continues; a thrown fetch error is caught, pushed as a
500 `Internal Server Error` failure, and the loop continues; a parsed body is
folded into `allResults` with the variant's accumulation `step`. -/
def dispatchBatches {α : Type} (step : List α → Body α → List α)
    (oracle : List String → UpResp α) :
    List (List String) → Nat → List α → List Failure → List (List String) →
    DispatchResult α
  | [], _, allResults, errors, calls => ⟨allResults, errors, calls⟩
  | batch :: rest, i, allResults, errors, calls =>
    match oracle batch with
    | .ok body =>
        dispatchBatches step oracle rest (i + BATCH_SIZE) (step allResults body)
          errors (calls ++ [batch])
    | .httpErr status statusText details =>
        dispatchBatches step oracle rest (i + BATCH_SIZE) allResults
          (errors ++ [⟨i, status, statusText, details⟩]) (calls ++ [batch])
    | .transErr msg =>
        dispatchBatches step oracle rest (i + BATCH_SIZE) allResults
          (errors ++ [⟨i, 500, "Internal Server Error", msg⟩]) (calls ++ [batch])

/-- Full dispatch of a validated identifier list: run the slicing loop from
offset 0 with empty accumulators. -/
def runDispatch {α : Type} (step : List α → Body α → List α)
    (oracle : List String → UpResp α) (ids : List String) : DispatchResult α :=
  dispatchBatches step oracle (chunks ids) 0 [] [] []

/-- Items contributed to `data` by one upstream outcome: the elements of an
array body, a singleton for a lone record, nothing for a failure. -/
def items {α : Type} : UpResp α → List α
  | .ok (.arr l) => l
  | .ok (.single r) => [r]
  | .httpErr _ _ _ => []
  | .transErr _ => []

/-- Failure entry recorded for one upstream outcome of the batch starting at
offset `i`, if any. -/
def failureAt {α : Type} (i : Nat) : UpResp α → Option Failure
  | .ok _ => none
  | .httpErr status statusText details => some ⟨i, status, statusText, details⟩
  | .transErr msg => some ⟨i, 500, "Internal Server Error", msg⟩

/-- Specification-level `data`: concatenation of every success's items, in
batch order. -/
def specDataOf {α : Type} (oracle : List String → UpResp α)
    (bs : List (List String)) : List α :=
  (bs.map (fun b => items (oracle b))).flatten

/-- Specification-level `errors`: every failure, in batch order, attributed
to its batch's starting offset. -/
def specErrsGo {α : Type} (oracle : List String → UpResp α) :
    List (List String) → Nat → List Failure
  | [], _ => []
  | b :: rest, i => (failureAt i (oracle b)).toList ++ specErrsGo oracle rest (i + BATCH_SIZE)

/-- The `data` sequence a handler accumulates for identifier list `ids`. -/
def dataOf {α : Type} (oracle : List String → UpResp α) (ids : List String) : List α :=
  specDataOf oracle (chunks ids)

/-- The `errors` sequence a handler accumulates for identifier list `ids`. -/
def errsOf {α : Type} (oracle : List String → UpResp α) (ids : List String) : List Failure :=
  specErrsGo oracle (chunks ids) 0

/-! ### Request normalization and responses -/

/-- Shape of `req.query.placeIds` as Express delivers it: absent, a string,
an array of strings, or some other (object-like, hence truthy) value. -/
inductive RawInput where
  | absent
  | str (s : String)
  | arr (l : List String)
  | other
deriving DecidableEq

/-- JavaScript truthiness of the `placeIds` query value: `undefined` and the
empty string are falsy; every non-empty string, every array (including `[]`)
and every object is truthy. -/
def truthy : RawInput → Bool
  | .absent => false
  | .str s => !(s = "")
  | .arr _ => true
  | .other => true

/-- Shape handling shared by the handlers: a string is split on commas and
each piece trimmed; an array is used as-is; any other truthy shape is the
`invalidMsg` format error. -/
def shapeIds (invalidMsg : String) : RawInput → Except String (List String)
  | .str s => .ok ((jsSplitComma s).map jsTrim)
  | .arr l => .ok l
  | _ => .error invalidMsg

/-- Input normalization of `part_000`: truthiness check, shape handling, then
the `parseInt` filter with rejection of an empty filtered list. -/
def normalize000 (raw : RawInput) : Except String (List String) :=
  if truthy raw = false then .error "Missing placeIds parameter."
  else
    match shapeIds "Invalid placeIds format." raw with
    | .error msg => .error msg
    | .ok ids =>
      let valid := validPlaceIds ids
      if valid.isEmpty then .error "No valid place IDs provided." else .ok valid

/-- Input normalization of `get-place-details.js`: truthiness check and shape
handling only — no identifier filtering. -/
def normalizeApi (raw : RawInput) : Except String (List String) :=
  if truthy raw = false then .error "Missing placeIds parameter."
  else shapeIds "Invalid placeIds format." raw

/-- Input normalization of `server.js`: like the api variant, with the longer
format-error message. -/
def normalizeServer (raw : RawInput) : Except String (List String) :=
  if truthy raw = false then .error "Missing placeIds parameter."
  else shapeIds "Invalid placeIds format. Must be a comma-separated string or an array." raw

/-- Decidable equality for `Except`, used to evaluate normalization results
on concrete inputs. -/
instance exceptDecEq {e a : Type} [DecidableEq e] [DecidableEq a] :
    DecidableEq (Except e a) := fun x y =>
  match x, y with
  | .error e1, .error e2 =>
    if h : e1 = e2 then .isTrue (h ▸ rfl) else .isFalse (fun hc => h (by injection hc))
  | .ok v1, .ok v2 =>
    if h : v1 = v2 then .isTrue (h ▸ rfl) else .isFalse (fun hc => h (by injection hc))
  | .error _, .ok _ => .isFalse (fun hc => by injection hc)
  | .ok _, .error _ => .isFalse (fun hc => by injection hc)

/-- Response body shapes the handlers serialize: a bare error object, an
error object carrying the failure list, a bare JSON array, a `data`-wrapped
array, and the partial-success object with data, errors and a message. -/
inductive RespBody (α : Type) where
  | errObj (error : String)
  | errList (error : String) (errors : List Failure)
  | bareArray (data : List α)
  | dataObj (data : List α)
  | withErrors (data : List α) (errors : List Failure) (message : String)
deriving DecidableEq

/-- An HTTP response: status code and JSON body.  `res.json(x)` with no
explicit status carries Express's default status 200. -/
structure Resp (α : Type) where
  status : Nat
  body : RespBody α
deriving DecidableEq

/-- Observable outcome of one handler run: the response sent and the batches
fetched upstream. -/
structure Outcome (α : Type) where
  resp : Resp α
  calls : List (List String)
deriving DecidableEq

/-- Final decision of `part_000`: 500 `All requests failed` when there are
errors and no results, 200 with the partial-success body when there are
errors, otherwise 200 with `{data}`. -/
def finish000 {α : Type} (allResults : List α) (errors : List Failure) : Resp α :=
  if errors.length > 0 ∧ allResults.length = 0 then
    ⟨500, .errList "All requests failed" errors⟩
  else if errors.length > 0 then
    ⟨200, .withErrors allResults errors "Some batches failed."⟩
  else ⟨200, .dataObj allResults⟩

/-- Final decision of `get-place-details.js`: 200 with the partial-success
body when there are errors, otherwise `res.json(allResults)` (a bare array,
status 200). -/
def finishApi {α : Type} (allResults : List α) (errors : List Failure) : Resp α :=
  if errors.length > 0 then
    ⟨200, .withErrors allResults errors "Some batches failed."⟩
  else ⟨200, .bareArray allResults⟩

/-- Final decision of `server.js`: as the api variant, with its longer
message. -/
def finishServer {α : Type} (allResults : List α) (errors : List Failure) : Resp α :=
  if errors.length > 0 then
    ⟨200, .withErrors allResults errors "Some batches failed to fetch data from Roblox API."⟩
  else ⟨200, .bareArray allResults⟩

/-- The `part_000` handler: normalize (with filtering), dispatch every batch
with the `Array.isArray` accumulation, then decide the response.  `oracle`
abstracts `fetch`, fed the session token and the batch; a validation failure
answers 400 before any upstream call. -/
def handler000 {α : Type} (raw : RawInput) (tok : String)
    (oracle : String → List String → UpResp α) : Outcome α :=
  match normalize000 raw with
  | .error msg => ⟨⟨400, .errObj msg⟩, []⟩
  | .ok ids =>
    let r := runDispatch accumBranch (oracle tok) ids
    ⟨finish000 r.allResults r.errors, r.calls⟩

/-- The `get-place-details.js` handler: no filtering, unconditional `concat`
accumulation, never a 500 after dispatch. -/
def handlerApi {α : Type} (raw : RawInput) (tok : String)
    (oracle : String → List String → UpResp α) : Outcome α :=
  match normalizeApi raw with
  | .error msg => ⟨⟨400, .errObj msg⟩, []⟩
  | .ok ids =>
    let r := runDispatch jsConcat (oracle tok) ids
    ⟨finishApi r.allResults r.errors, r.calls⟩

/-- The `server.js` handler: as the api variant, with its own messages. -/
def handlerServer {α : Type} (raw : RawInput) (tok : String)
    (oracle : String → List String → UpResp α) : Outcome α :=
  match normalizeServer raw with
  | .error msg => ⟨⟨400, .errObj msg⟩, []⟩
  | .ok ids =>
    let r := runDispatch jsConcat (oracle tok) ids
    ⟨finishServer r.allResults r.errors, r.calls⟩

/-- Batches a `part_000` run dispatches for a given raw input: the partition
of the validated identifiers, or nothing when validation fails. -/
def batchesOf000 (raw : RawInput) : List (List String) :=
  match normalize000 raw with
  | .ok ids => chunks ids
  | .error _ => []

/-! ### Lemmas about the batch partition -/

theorem chunksGo_nil {α : Type} (f : Nat) : chunksGo f ([] : List α) = [] := by
  cases f <;> rfl

theorem chunksGo_congr {α : Type} :
    ∀ (f1 f2 : Nat) (l : List α), l.length ≤ f1 → l.length ≤ f2 →
      chunksGo f1 l = chunksGo f2 l := by
  intro f1
  induction f1 with
  | zero =>
    intro f2 l h1 _
    have : l = [] := List.length_eq_zero.mp (Nat.le_zero.mp h1)
    subst this
    rw [chunksGo_nil, chunksGo_nil]
  | succ f1 ih =>
    intro f2 l h1 h2
    cases l with
    | nil => rw [chunksGo_nil, chunksGo_nil]
    | cons a t =>
      cases f2 with
      | zero => simp at h2
      | succ f2 =>
        show ((a :: t).take BATCH_SIZE) :: chunksGo f1 ((a :: t).drop BATCH_SIZE)
            = ((a :: t).take BATCH_SIZE) :: chunksGo f2 ((a :: t).drop BATCH_SIZE)
        congr 1
        apply ih f2
        · simp only [List.length_drop, List.length_cons, BATCH_SIZE] at h1 ⊢
          omega
        · simp only [List.length_drop, List.length_cons, BATCH_SIZE] at h2 ⊢
          omega

theorem chunks_nil {α : Type} : chunks ([] : List α) = [] := rfl

theorem chunks_cons {α : Type} (l : List α) (h : l ≠ []) :
    chunks l = l.take BATCH_SIZE :: chunks (l.drop BATCH_SIZE) := by
  cases l with
  | nil => exact absurd rfl h
  | cons a t =>
    show chunksGo (t.length + 1) (a :: t) = _
    show ((a :: t).take BATCH_SIZE) :: chunksGo t.length ((a :: t).drop BATCH_SIZE)
        = ((a :: t).take BATCH_SIZE) :: chunks ((a :: t).drop BATCH_SIZE)
    congr 1
    apply chunksGo_congr
    · simp only [List.length_drop, List.length_cons, BATCH_SIZE]
      omega
    · exact Nat.le_refl _

theorem chunks_eq_nil_iff {α : Type} (l : List α) : chunks l = [] ↔ l = [] := by
  constructor
  · intro h
    cases l with
    | nil => rfl
    | cons a t =>
      rw [chunks_cons (a :: t) (by simp)] at h
      simp at h
  · intro h; subst h; rfl

theorem chunks_flatten {α : Type} :
    ∀ (n : Nat) (l : List α), l.length ≤ n → (chunks l).flatten = l := by
  intro n
  induction n with
  | zero =>
    intro l h
    have : l = [] := List.length_eq_zero.mp (Nat.le_zero.mp h)
    subst this; rfl
  | succ n ih =>
    intro l h
    cases l with
    | nil => rfl
    | cons a t =>
      rw [chunks_cons (a :: t) (by simp), List.flatten_cons,
        ih ((a :: t).drop BATCH_SIZE) (by simp only [List.length_drop, List.length_cons, BATCH_SIZE] at h ⊢; omega),
        List.take_append_drop]

theorem chunks_length {α : Type} :
    ∀ (n : Nat) (l : List α), l.length ≤ n →
      (chunks l).length = (l.length + (BATCH_SIZE - 1)) / BATCH_SIZE := by
  intro n
  induction n with
  | zero =>
    intro l h
    have : l = [] := List.length_eq_zero.mp (Nat.le_zero.mp h)
    subst this; simp [chunks_nil, BATCH_SIZE]
  | succ n ih =>
    intro l h
    cases l with
    | nil => simp [chunks_nil, BATCH_SIZE]
    | cons a t =>
      rw [chunks_cons (a :: t) (by simp), List.length_cons,
        ih ((a :: t).drop BATCH_SIZE) (by simp only [List.length_drop, List.length_cons, BATCH_SIZE] at h ⊢; omega)]
      simp only [List.length_drop, List.length_cons, BATCH_SIZE]
      omega

theorem chunks_dropLast_length {α : Type} :
    ∀ (n : Nat) (l : List α), l.length ≤ n →
      ∀ b ∈ (chunks l).dropLast, b.length = BATCH_SIZE := by
  intro n
  induction n with
  | zero =>
    intro l h b hb
    have : l = [] := List.length_eq_zero.mp (Nat.le_zero.mp h)
    subst this; simp [chunks_nil] at hb
  | succ n ih =>
    intro l h b hb
    cases l with
    | nil => simp [chunks_nil] at hb
    | cons a t =>
      rw [chunks_cons (a :: t) (by simp)] at hb
      rcases hrest : chunks ((a :: t).drop BATCH_SIZE) with _ | ⟨r, rs⟩
      · rw [hrest] at hb
        simp at hb
      · rw [hrest] at hb
        rw [List.dropLast_cons₂] at hb
        rcases List.mem_cons.mp hb with hb | hb
        · subst hb
          have hlen : BATCH_SIZE < (a :: t).length := by
            have hne : (a :: t).drop BATCH_SIZE ≠ [] := by
              intro hc
              rw [hc, chunks_nil] at hrest
              exact List.noConfusion hrest
            have := List.length_lt_of_drop_ne_nil hne
            omega
          simp only [List.length_take]
          omega
        · have := ih ((a :: t).drop BATCH_SIZE)
            (by simp only [List.length_drop, List.length_cons, BATCH_SIZE] at h ⊢; omega) b
          rw [hrest] at this
          exact this hb

theorem chunks_getLast_length {α : Type} :
    ∀ (n : Nat) (l : List α), l.length ≤ n →
      ∀ b, (chunks l).getLast? = some b →
        b.length = (if l.length % BATCH_SIZE = 0 then BATCH_SIZE else l.length % BATCH_SIZE) := by
  intro n
  induction n with
  | zero =>
    intro l h b hb
    have : l = [] := List.length_eq_zero.mp (Nat.le_zero.mp h)
    subst this; simp [chunks_nil] at hb
  | succ n ih =>
    intro l h b hb
    cases l with
    | nil => simp [chunks_nil] at hb
    | cons a t =>
      rw [chunks_cons (a :: t) (by simp)] at hb
      rcases hrest : chunks ((a :: t).drop BATCH_SIZE) with _ | ⟨r, rs⟩
      · rw [hrest] at hb
        have hb' : (a :: t).take BATCH_SIZE = b := by simpa using hb
        subst hb'
        have hdnil : (a :: t).drop BATCH_SIZE = [] := (chunks_eq_nil_iff _).mp hrest
        have hle : (a :: t).length ≤ BATCH_SIZE := by
          have hld := List.length_drop BATCH_SIZE (a :: t)
          rw [hdnil] at hld
          simp only [List.length_nil] at hld
          omega
        have hpos : 0 < (a :: t).length := by simp
        rw [List.length_take]
        simp only [BATCH_SIZE] at hle ⊢
        split <;> omega
      · rw [hrest] at hb
        rw [List.getLast?_cons_cons] at hb
        have hne : (a :: t).drop BATCH_SIZE ≠ [] := by
          intro hc
          rw [hc, chunks_nil] at hrest
          exact List.noConfusion hrest
        have hlen : BATCH_SIZE < (a :: t).length := by
          have := List.length_lt_of_drop_ne_nil hne
          omega
        have := ih ((a :: t).drop BATCH_SIZE)
          (by simp only [List.length_drop, List.length_cons, BATCH_SIZE] at h ⊢; omega) b
          (by rw [hrest]; exact hb)
        rw [this]
        simp only [List.length_drop]
        simp only [BATCH_SIZE] at hlen ⊢
        split <;> split <;> omega

theorem chunks_take_sum {α : Type} :
    ∀ (k : Nat) (l : List α), k < (chunks l).length →
      ((((chunks l).take k).map List.length).sum) = BATCH_SIZE * k := by
  intro k
  induction k with
  | zero => intro l _; simp
  | succ k ih =>
    intro l hk
    cases l with
    | nil => simp [chunks_nil] at hk
    | cons a t =>
      rw [chunks_cons (a :: t) (by simp)] at hk ⊢
      simp only [List.length_cons] at hk
      have hk' : k < (chunks ((a :: t).drop BATCH_SIZE)).length := by omega
      have hne : chunks ((a :: t).drop BATCH_SIZE) ≠ [] := by
        intro hc
        rw [hc] at hk'
        simp at hk'
      have hdne : (a :: t).drop BATCH_SIZE ≠ [] := by
        intro hc
        exact hne ((chunks_eq_nil_iff _).mpr hc)
      have hlen : BATCH_SIZE < (a :: t).length := by
        have := List.length_lt_of_drop_ne_nil hdne
        omega
      rw [List.take_cons (by omega : 0 < k + 1), Nat.add_sub_cancel, List.map_cons,
        List.sum_cons, ih ((a :: t).drop BATCH_SIZE) hk']
      rw [List.length_take]
      have hmin : min BATCH_SIZE (a :: t).length = BATCH_SIZE := by omega
      rw [hmin]
      ring

/-! ### Lemmas about `parseInt` and the identifier filter -/

theorem parseIntCore_isSome (ws : List Char) :
    (if (stripRadix (stripSign ws)).2.takeWhile (radixDigit (stripRadix (stripSign ws)).1) = []
     then (none : Option Int)
     else some (signOf ws *
       ((((stripRadix (stripSign ws)).2.takeWhile
           (radixDigit (stripRadix (stripSign ws)).1)).foldl
         (fun a c => a * (stripRadix (stripSign ws)).1 + digitValue c) 0 : Nat) : Int))).isSome
    = (match (stripRadix (stripSign ws)).2 with
       | [] => false
       | c :: _ => radixDigit (stripRadix (stripSign ws)).1 c) := by
  rcases h : stripRadix (stripSign ws) with ⟨radix, l⟩
  cases l with
  | nil => simp [h, List.takeWhile]
  | cons c t =>
    by_cases hc : radixDigit radix c = true
    · simp [h, hc, List.takeWhile_cons]
    · simp [h, hc, List.takeWhile_cons]

theorem jsParseInt_isSome (s : String) : (jsParseInt s).isSome = startsAsInt s :=
  parseIntCore_isSome (s.toList.dropWhile Char.isWhitespace)

theorem validPlaceIds_eq_filter_startsAsInt (l : List String) :
    validPlaceIds l = l.filter startsAsInt := by
  unfold validPlaceIds
  apply List.filter_congr
  intro s _
  exact jsParseInt_isSome s

/-! ### Lemmas about dispatch -/

theorem accumBranch_eq_jsConcat {α : Type} :
    @accumBranch α = @jsConcat α := by
  funext acc b
  cases b with
  | arr l => rfl
  | single r => simp [accumBranch, jsConcat, List.concat_eq_append]

theorem accumBranch_eq_append_items {α : Type} (acc : List α) (body : Body α) :
    accumBranch acc body = acc ++ items (UpResp.ok body) := by
  cases body with
  | arr l => rfl
  | single r => simp [accumBranch, items, List.concat_eq_append]

theorem dispatchBatches_spec {α : Type} (oracle : List String → UpResp α) :
    ∀ (bs : List (List String)) (i : Nat) (acc : List α) (errs : List Failure)
      (cs : List (List String)),
      dispatchBatches accumBranch oracle bs i acc errs cs =
        ⟨acc ++ specDataOf oracle bs, errs ++ specErrsGo oracle bs i, cs ++ bs⟩ := by
  intro bs
  induction bs with
  | nil =>
    intro i acc errs cs
    simp [dispatchBatches, specDataOf, specErrsGo]
  | cons b rest ih =>
    intro i acc errs cs
    rcases hb : oracle b with body | ⟨status, statusText, details⟩ | msg
    · simp only [dispatchBatches, hb]
      rw [ih, accumBranch_eq_append_items]
      simp [specDataOf, specErrsGo, hb, items, failureAt]
    · simp only [dispatchBatches, hb]
      rw [ih]
      simp [specDataOf, specErrsGo, hb, items, failureAt]
    · simp only [dispatchBatches, hb]
      rw [ih]
      simp [specDataOf, specErrsGo, hb, items, failureAt]

theorem runDispatch_spec {α : Type} (oracle : List String → UpResp α) (ids : List String) :
    runDispatch accumBranch oracle ids =
      ⟨dataOf oracle ids, errsOf oracle ids, chunks ids⟩ := by
  unfold runDispatch dataOf errsOf
  rw [dispatchBatches_spec]
  simp

theorem runDispatch_spec_jsConcat {α : Type} (oracle : List String → UpResp α)
    (ids : List String) :
    runDispatch jsConcat oracle ids =
      ⟨dataOf oracle ids, errsOf oracle ids, chunks ids⟩ := by
  rw [← accumBranch_eq_jsConcat]
  exact runDispatch_spec oracle ids

theorem dispatchBatches_congr {α : Type} (step : List α → Body α → List α)
    (o1 o2 : List String → UpResp α) :
    ∀ (bs : List (List String)) (i : Nat) (acc : List α) (errs : List Failure)
      (cs : List (List String)), (∀ b ∈ bs, o1 b = o2 b) →
      dispatchBatches step o1 bs i acc errs cs = dispatchBatches step o2 bs i acc errs cs := by
  intro bs
  induction bs with
  | nil => intro i acc errs cs _; rfl
  | cons b rest ih =>
    intro i acc errs cs h
    have hb : o1 b = o2 b := h b (List.mem_cons_self b rest)
    have hrest : ∀ x ∈ rest, o1 x = o2 x := fun x hx => h x (List.mem_cons_of_mem b hx)
    simp only [dispatchBatches, hb]
    rcases h2 : o2 b with body | ⟨status, statusText, details⟩ | msg <;>
      simp only [h2] <;> exact ih _ _ _ _ hrest

theorem failureAt_batchIndex {α : Type} (i : Nat) (r : UpResp α) (e : Failure)
    (h : failureAt i r = some e) : e.batchIndex = i := by
  cases r with
  | ok body => simp [failureAt] at h
  | httpErr status statusText details =>
    simp [failureAt] at h
    rw [← h]
  | transErr msg =>
    simp [failureAt] at h
    rw [← h]

theorem specErrsGo_mem {α : Type} (oracle : List String → UpResp α) :
    ∀ (bs : List (List String)) (i : Nat) (e : Failure), e ∈ specErrsGo oracle bs i →
      ∃ k, ∃ h : k < bs.length,
        failureAt (i + BATCH_SIZE * k) (oracle (bs.get ⟨k, h⟩)) = some e := by
  intro bs
  induction bs with
  | nil => intro i e he; simp [specErrsGo] at he
  | cons b rest ih =>
    intro i e he
    rcases List.mem_append.mp he with he | he
    · refine ⟨0, by simp, ?_⟩
      simp only [Nat.mul_zero, Nat.add_zero, List.get]
      rcases hx : failureAt i (oracle b) with _ | f
      · rw [hx] at he; simp at he
      · rw [hx] at he
        simp at he
        subst he
        rfl
    · rcases ih (i + BATCH_SIZE) e he with ⟨k, hk, hf⟩
      refine ⟨k + 1, by simpa using Nat.succ_lt_succ hk, ?_⟩
      have harith : i + BATCH_SIZE + BATCH_SIZE * k = i + BATCH_SIZE * (k + 1) := by ring
      rw [harith] at hf
      exact hf

/-! ### Lemmas about the handlers -/

theorem handler000_ok {α : Type} (raw : RawInput) (tok : String)
    (oracle : String → List String → UpResp α) (ids : List String)
    (h : normalize000 raw = .ok ids) :
    handler000 raw tok oracle =
      ⟨finish000 (dataOf (oracle tok) ids) (errsOf (oracle tok) ids), chunks ids⟩ := by
  unfold handler000
  rw [h]
  simp only [runDispatch_spec]

theorem handlerApi_ok {α : Type} (raw : RawInput) (tok : String)
    (oracle : String → List String → UpResp α) (ids : List String)
    (h : normalizeApi raw = .ok ids) :
    handlerApi raw tok oracle =
      ⟨finishApi (dataOf (oracle tok) ids) (errsOf (oracle tok) ids), chunks ids⟩ := by
  unfold handlerApi
  rw [h]
  simp only [runDispatch_spec_jsConcat]

theorem handlerServer_ok {α : Type} (raw : RawInput) (tok : String)
    (oracle : String → List String → UpResp α) (ids : List String)
    (h : normalizeServer raw = .ok ids) :
    handlerServer raw tok oracle =
      ⟨finishServer (dataOf (oracle tok) ids) (errsOf (oracle tok) ids), chunks ids⟩ := by
  unfold handlerServer
  rw [h]
  simp only [runDispatch_spec_jsConcat]

theorem finish000_allfail {α : Type} (data : List α) (errs : List Failure)
    (he : errs ≠ []) (hd : data = []) :
    finish000 data errs = ⟨500, .errList "All requests failed" errs⟩ := by
  unfold finish000
  rw [if_pos]
  exact ⟨List.length_pos.mpr he, by rw [hd]; rfl⟩

theorem finish000_some {α : Type} (data : List α) (errs : List Failure)
    (hd : data ≠ []) (he : errs ≠ []) :
    finish000 data errs = ⟨200, .withErrors data errs "Some batches failed."⟩ := by
  unfold finish000
  rw [if_neg, if_pos (List.length_pos.mpr he)]
  rintro ⟨-, h0⟩
  exact hd (List.length_eq_zero.mp h0)

theorem finish000_status {α : Type} (data : List α) (errs : List Failure)
    (hd : data ≠ []) : (finish000 data errs).status = 200 := by
  unfold finish000
  split_ifs with h1 h2
  · exact absurd (List.length_eq_zero.mp h1.2) hd
  · rfl
  · rfl

theorem finishApi_errs {α : Type} (data : List α) (errs : List Failure)
    (he : errs ≠ []) :
    finishApi data errs = ⟨200, .withErrors data errs "Some batches failed."⟩ := by
  unfold finishApi
  rw [if_pos (List.length_pos.mpr he)]

theorem finishApi_status {α : Type} (data : List α) (errs : List Failure) :
    (finishApi data errs).status = 200 := by
  unfold finishApi
  split_ifs <;> rfl

theorem finishServer_errs {α : Type} (data : List α) (errs : List Failure)
    (he : errs ≠ []) :
    finishServer data errs =
      ⟨200, .withErrors data errs "Some batches failed to fetch data from Roblox API."⟩ := by
  unfold finishServer
  rw [if_pos (List.length_pos.mpr he)]

theorem finishServer_status {α : Type} (data : List α) (errs : List Failure) :
    (finishServer data errs).status = 200 := by
  unfold finishServer
  split_ifs <;> rfl

/-! ### Claim theorems -/

/-- C2, counterexample: the claim states that every element surviving the
Input Normalizer's filter parses as an optional sign followed by base-10
digits and nothing else.  The string `12abc` survives the `part_000` filter
(JavaScript `parseInt("12abc")` is `12`, not `NaN`), yet it is not such an
integer literal. -/
theorem c2_counterexample :
    validPlaceIds ["12abc"] = ["12abc"]
    ∧ strictIntLiteral "12abc" = false
    ∧ jsParseInt "12abc" = some 12 :=
  ⟨by decide, by decide, by decide⟩

/-- C2, amended: the filter keeps exactly the elements accepted by
JavaScript `parseInt` — those that, after optional leading whitespace and one
optional sign, begin with a decimal digit (or with `0x`/`0X` followed by a
hexadecimal digit); all other elements are dropped by the filter without
being reported individually.  Trailing non-numeric content is not rejected. -/
theorem c2_amended_theorem (l : List String) :
    validPlaceIds l = l.filter startsAsInt :=
  validPlaceIds_eq_filter_startsAsInt l

/-- C3: for a validated identifier sequence of length N and BATCH_SIZE = 50,
the slicing loop produces ceil(N/50) contiguous batches whose concatenation
is the original sequence (hence in original order, first batch at offset 0),
every batch except possibly the last has length 50, and the last batch has
length N mod 50 (or 50 when 50 divides N). -/
theorem c3_theorem {α : Type} (l : List α) :
    (chunks l).length = (l.length + (BATCH_SIZE - 1)) / BATCH_SIZE
    ∧ (chunks l).flatten = l
    ∧ (∀ b ∈ (chunks l).dropLast, b.length = BATCH_SIZE)
    ∧ (∀ b, (chunks l).getLast? = some b →
        b.length = (if l.length % BATCH_SIZE = 0 then BATCH_SIZE else l.length % BATCH_SIZE)) :=
  ⟨chunks_length l.length l (Nat.le_refl _), chunks_flatten l.length l (Nat.le_refl _),
   chunks_dropLast_length l.length l (Nat.le_refl _),
   chunks_getLast_length l.length l (Nat.le_refl _)⟩

/-- C3, witness: on a 75-element sequence the partition has a 50-element
batch followed by a 25-element batch. -/
theorem c3_witness :
    ((List.range 75).take BATCH_SIZE).length = BATCH_SIZE
    ∧ ((List.range 75).drop BATCH_SIZE).length
        = (if (List.range 75).length % BATCH_SIZE = 0 then BATCH_SIZE
           else (List.range 75).length % BATCH_SIZE) :=
  ⟨(c3_theorem (List.range 75)).2.2.1 ((List.range 75).take BATCH_SIZE) (by decide),
   (c3_theorem (List.range 75)).2.2.2 ((List.range 75).drop BATCH_SIZE) (by decide)⟩

/-- C5: whatever outcome the upstream oracle produces for each batch —
including failures for early batches — the dispatch loop fetches every batch
of the partition exactly once, in partition order: the call trace equals the
partition itself, for both accumulation variants. -/
theorem c5_theorem {α : Type} (oracle : List String → UpResp α) (ids : List String) :
    (runDispatch accumBranch oracle ids).calls = chunks ids
    ∧ (runDispatch jsConcat oracle ids).calls = chunks ids := by
  constructor
  · rw [runDispatch_spec]
  · rw [runDispatch_spec_jsConcat]

/-- C9: the two success-accumulation implementations agree — the explicit
`Array.isArray` branch of `part_000` (concat for arrays, push for single
records) and the unconditional `allResults.concat(data)` of
`get-place-details.js` produce the same data sequence on every sequence of
parsed upstream bodies, and the full dispatch results coincide. -/
theorem c9_theorem {α : Type} (bodies : List (Body α)) (init : List α)
    (oracle : List String → UpResp α) (ids : List String) :
    bodies.foldl accumBranch init = bodies.foldl jsConcat init
    ∧ runDispatch accumBranch oracle ids = runDispatch jsConcat oracle ids := by
  rw [accumBranch_eq_jsConcat]
  exact ⟨rfl, rfl⟩

/-- C10: in the non-filtering handler variants an empty-array input is not
rejected: `[]` is truthy, the batch loop runs zero times, and the handler
answers 200 with an empty bare array having made zero upstream calls. -/
theorem c10_theorem {α : Type} (tok : String)
    (oracle : String → List String → UpResp α) :
    handlerApi (RawInput.arr []) tok oracle = ⟨⟨200, .bareArray []⟩, []⟩
    ∧ handlerServer (RawInput.arr []) tok oracle = ⟨⟨200, .bareArray []⟩, []⟩ :=
  ⟨rfl, rfl⟩

/-- C7: every failure recorded during dispatch carries as `batchIndex` the
starting offset of the failed batch within the validated identifier
sequence: it equals `BATCH_SIZE * k` for the batch's position `k` in the
partition, which is the sum of the lengths of all preceding batches, and the
oracle's outcome for that very batch is the recorded failure. -/
theorem c7_theorem {α : Type} (oracle : List String → UpResp α) (ids : List String)
    (e : Failure) (he : e ∈ (runDispatch accumBranch oracle ids).errors) :
    ∃ k, ∃ h : k < (chunks ids).length,
      failureAt e.batchIndex (oracle ((chunks ids).get ⟨k, h⟩)) = some e
      ∧ e.batchIndex = BATCH_SIZE * k
      ∧ e.batchIndex = (((chunks ids).take k).map List.length).sum := by
  rw [runDispatch_spec] at he
  rcases specErrsGo_mem oracle (chunks ids) 0 e he with ⟨k, hk, hf⟩
  have hidx : e.batchIndex = 0 + BATCH_SIZE * k := failureAt_batchIndex _ _ _ hf
  refine ⟨k, hk, ?_, ?_, ?_⟩
  · rw [hidx]
    exact hf
  · rw [hidx, Nat.zero_add]
  · rw [chunks_take_sum k ids hk, hidx, Nat.zero_add]

/-- C7, witness: 75 identifiers make two batches; when the second (25-long)
batch fails with 404, the single recorded failure has batchIndex 50, the
second batch's starting offset — not 0, its position in the errors list. -/
theorem c7_witness :
    (⟨50, 404, "Not Found", "nf"⟩ : Failure) ∈ (runDispatch (α := Nat) accumBranch
      (fun b => if b.length = 50 then UpResp.ok (Body.arr [(1 : Nat)])
        else UpResp.httpErr 404 "Not Found" "nf")
      (List.replicate 75 "1")).errors
    ∧ ∃ k, ∃ h : k < (chunks (List.replicate 75 "1")).length,
        failureAt (Failure.batchIndex ⟨50, 404, "Not Found", "nf"⟩)
          ((fun b => if b.length = 50 then UpResp.ok (Body.arr [(1 : Nat)])
            else UpResp.httpErr 404 "Not Found" "nf")
            ((chunks (List.replicate 75 "1")).get ⟨k, h⟩))
          = some ⟨50, 404, "Not Found", "nf"⟩
        ∧ Failure.batchIndex ⟨50, 404, "Not Found", "nf"⟩ = BATCH_SIZE * k
        ∧ Failure.batchIndex ⟨50, 404, "Not Found", "nf"⟩
            = (((chunks (List.replicate 75 "1")).take k).map List.length).sum :=
  ⟨by decide,
   c7_theorem
     (fun b => if b.length = 50 then UpResp.ok (Body.arr [(1 : Nat)])
       else UpResp.httpErr 404 "Not Found" "nf")
     (List.replicate 75 "1") ⟨50, 404, "Not Found", "nf"⟩ (by decide)⟩

/-- C8: the `part_000` handler is deterministic — two executions with the
same raw input, the same configured token, and upstream oracles that answer
identically on every batch of the request's partition produce identical
outcomes (same status, same data order, same errors, same calls). -/
theorem c8_theorem {α : Type} (raw : RawInput) (tok : String)
    (o1 o2 : String → List String → UpResp α)
    (h : ∀ b ∈ batchesOf000 raw, o1 tok b = o2 tok b) :
    handler000 raw tok o1 = handler000 raw tok o2 := by
  unfold handler000
  rcases hn : normalize000 raw with msg | ids
  · rfl
  · have hd : runDispatch accumBranch (o1 tok) ids = runDispatch accumBranch (o2 tok) ids := by
      unfold runDispatch
      apply dispatchBatches_congr
      intro b hb
      exact h b (by unfold batchesOf000; rw [hn]; exact hb)
    exact congrArg (fun r => (⟨finish000 r.allResults r.errors, r.calls⟩ : Outcome α)) hd

/-- C8, witness: two oracles that agree on the single dispatched batch but
differ elsewhere yield the same outcome. -/
theorem c8_witness :
    handler000 (α := Nat) (RawInput.str "1") "t" (fun _ _ => UpResp.ok (Body.arr [1]))
      = handler000 (RawInput.str "1") "t"
          (fun _ b => if b = ["1"] then UpResp.ok (Body.arr [1])
            else UpResp.httpErr 500 "X" "y") :=
  c8_theorem (RawInput.str "1") "t" _ _ (by decide)

/-- C6: validation failures are decided before any network activity.  For
every oracle: absent or empty-string input is answered 400
`Missing placeIds parameter.` with zero upstream calls by all three
handlers; in the validating `part_000` handler, an input whose filtered
identifier sequence is empty is answered 400 `No valid place IDs provided.`
with zero upstream calls, for both string and array input shapes. -/
theorem c6_theorem {α : Type} (tok : String)
    (oracle : String → List String → UpResp α) :
    (∀ raw : RawInput, raw = RawInput.absent ∨ raw = RawInput.str "" →
        handler000 raw tok oracle = ⟨⟨400, .errObj "Missing placeIds parameter."⟩, []⟩
        ∧ handlerApi raw tok oracle = ⟨⟨400, .errObj "Missing placeIds parameter."⟩, []⟩
        ∧ handlerServer raw tok oracle = ⟨⟨400, .errObj "Missing placeIds parameter."⟩, []⟩)
    ∧ (∀ s : String, validPlaceIds ((jsSplitComma s).map jsTrim) = [] →
        handler000 (RawInput.str s) tok oracle
          = ⟨⟨400, .errObj "No valid place IDs provided."⟩, []⟩
        ∨ handler000 (RawInput.str s) tok oracle
          = ⟨⟨400, .errObj "Missing placeIds parameter."⟩, []⟩)
    ∧ (∀ l : List String, validPlaceIds l = [] →
        handler000 (RawInput.arr l) tok oracle
          = ⟨⟨400, .errObj "No valid place IDs provided."⟩, []⟩) := by
  refine ⟨?_, ?_, ?_⟩
  · rintro raw (rfl | rfl)
    · exact ⟨rfl, rfl, rfl⟩
    · exact ⟨rfl, rfl, rfl⟩
  · intro s hv
    by_cases hs : s = ""
    · subst hs
      exact Or.inr rfl
    · left
      have hnorm : normalize000 (RawInput.str s) = .error "No valid place IDs provided." := by
        unfold normalize000
        rw [if_neg (by simp [truthy, hs])]
        unfold shapeIds
        simp only [List.isEmpty_iff]
        rw [hv]
        simp
      unfold handler000
      rw [hnorm]
  · intro l hv
    have hnorm : normalize000 (RawInput.arr l) = .error "No valid place IDs provided." := by
      unfold normalize000
      rw [if_neg (by simp [truthy])]
      unfold shapeIds
      simp only [List.isEmpty_iff]
      rw [hv]
      simp
    unfold handler000
    rw [hnorm]

/-- C6, witness: the absent input and the spec scenario `abc,def` (no
numeric identifiers) both yield 400 with zero upstream calls. -/
theorem c6_witness :
    (handler000 (α := Nat) RawInput.absent "t" (fun _ _ => UpResp.ok (Body.arr []))
        = ⟨⟨400, .errObj "Missing placeIds parameter."⟩, []⟩)
    ∧ (handler000 (α := Nat) (RawInput.str "abc,def") "t" (fun _ _ => UpResp.ok (Body.arr []))
          = ⟨⟨400, .errObj "No valid place IDs provided."⟩, []⟩
        ∨ handler000 (α := Nat) (RawInput.str "abc,def") "t" (fun _ _ => UpResp.ok (Body.arr []))
          = ⟨⟨400, .errObj "Missing placeIds parameter."⟩, []⟩) :=
  ⟨(( c6_theorem "t" (fun _ _ => UpResp.ok (Body.arr []))).1 RawInput.absent (Or.inl rfl)).1,
   ( c6_theorem "t" (fun _ _ => UpResp.ok (Body.arr []))).2.1 "abc,def" (by decide)⟩

/-- C1, counterexample: the claim asserts that whenever batch dispatch
produces failures and no successes the handler answers 500 with
`All requests failed`.  For the cited `get-place-details.js` and `server.js`
handlers this is false: with a single batch failing (errors non-empty, data
empty) both answer 200. -/
theorem c1_counterexample :
    errsOf (α := Nat) (fun _ => UpResp.httpErr 404 "Not Found" "nf") ["1"] ≠ []
    ∧ dataOf (α := Nat) (fun _ => UpResp.httpErr 404 "Not Found" "nf") ["1"] = []
    ∧ (handlerApi (α := Nat) (RawInput.str "1") "t"
        (fun _ _ => UpResp.httpErr 404 "Not Found" "nf")).resp.status = 200
    ∧ (handlerServer (α := Nat) (RawInput.str "1") "t"
        (fun _ _ => UpResp.httpErr 404 "Not Found" "nf")).resp.status = 200 :=
  ⟨by decide, by decide, by decide, by decide⟩

/-- C1, amended: only the `part_000` handler implements the all-failed rule —
errors non-empty and data empty yields 500 with
`error: All requests failed` and the failure list, and data non-empty yields
status 200; the `get-place-details.js` and `server.js` handlers instead
answer 200 with the partial-failure body even when every batch failed. -/
theorem c1_amended_theorem {α : Type} (raw : RawInput) (tok : String)
    (oracle : String → List String → UpResp α) (ids : List String) :
    (normalize000 raw = .ok ids → errsOf (oracle tok) ids ≠ [] →
      dataOf (oracle tok) ids = [] →
      (handler000 raw tok oracle).resp
        = ⟨500, .errList "All requests failed" (errsOf (oracle tok) ids)⟩)
    ∧ (normalize000 raw = .ok ids → dataOf (oracle tok) ids ≠ [] →
      (handler000 raw tok oracle).resp.status = 200)
    ∧ (normalizeApi raw = .ok ids →
      (handlerApi raw tok oracle).resp.status = 200)
    ∧ (normalizeApi raw = .ok ids → errsOf (oracle tok) ids ≠ [] →
      dataOf (oracle tok) ids = [] →
      (handlerApi raw tok oracle).resp
        = ⟨200, .withErrors [] (errsOf (oracle tok) ids) "Some batches failed."⟩)
    ∧ (normalizeServer raw = .ok ids → errsOf (oracle tok) ids ≠ [] →
      dataOf (oracle tok) ids = [] →
      (handlerServer raw tok oracle).resp
        = ⟨200, .withErrors [] (errsOf (oracle tok) ids)
            "Some batches failed to fetch data from Roblox API."⟩) := by
  refine ⟨?_, ?_, ?_, ?_, ?_⟩
  · intro h he hd
    rw [handler000_ok raw tok oracle ids h]
    exact finish000_allfail _ _ he hd
  · intro h hd
    rw [handler000_ok raw tok oracle ids h]
    exact finish000_status _ _ hd
  · intro h
    rw [handlerApi_ok raw tok oracle ids h]
    exact finishApi_status _ _
  · intro h he hd
    rw [handlerApi_ok raw tok oracle ids h]
    rw [hd]
    exact finishApi_errs _ _ he
  · intro h he hd
    rw [handlerServer_ok raw tok oracle ids h]
    rw [hd]
    exact finishServer_errs _ _ he

/-- C1, witness: with a single failing batch `part_000` answers 500
`All requests failed`; with a single succeeding batch it answers 200. -/
theorem c1_witness :
    (handler000 (α := Nat) (RawInput.str "1") "t"
        (fun _ _ => UpResp.httpErr 404 "Not Found" "nf")).resp
      = ⟨500, .errList "All requests failed"
          (errsOf (α := Nat) (fun _ => UpResp.httpErr 404 "Not Found" "nf") ["1"])⟩
    ∧ (handler000 (α := Nat) (RawInput.str "1") "t"
        (fun _ _ => UpResp.ok (Body.arr [1]))).resp.status = 200 :=
  ⟨(c1_amended_theorem (RawInput.str "1") "t"
      (fun _ _ => UpResp.httpErr 404 "Not Found" "nf") ["1"]).1
      (by decide) (by decide) (by decide),
   (c1_amended_theorem (RawInput.str "1") "t"
      (fun _ _ => UpResp.ok (Body.arr [1])) ["1"]).2.1 (by decide) (by decide)⟩

/-- C4, counterexample: the claim asserts the partial-success body carries
`message: "Some batches failed."` also for the cited `server.js` handler; on
a 51-identifier input with the first batch succeeding and the second
failing, that handler's message is the longer
`Some batches failed to fetch data from Roblox API.`. -/
theorem c4_counterexample :
    (handlerServer (α := Nat) (RawInput.arr (List.replicate 51 "1")) "t"
        (fun _ b => if b.length = 50 then UpResp.ok (Body.arr [1])
          else UpResp.httpErr 404 "NF" "nf")).resp
      = ⟨200, .withErrors [1] [⟨50, 404, "NF", "nf"⟩]
          "Some batches failed to fetch data from Roblox API."⟩
    ∧ "Some batches failed to fetch data from Roblox API." ≠ "Some batches failed." :=
  ⟨by decide, by decide⟩

/-- C4, amended: when dispatch yields both successes and failures, every
handler answers 200 with `data` the concatenation of all success items in
batch order and `errors` all failures in batch order; the message is
`Some batches failed.` in `part_000` and `get-place-details.js`, and
`Some batches failed to fetch data from Roblox API.` in `server.js`. -/
theorem c4_amended_theorem {α : Type} (raw : RawInput) (tok : String)
    (oracle : String → List String → UpResp α) (ids : List String) :
    (normalize000 raw = .ok ids → dataOf (oracle tok) ids ≠ [] →
      errsOf (oracle tok) ids ≠ [] →
      (handler000 raw tok oracle).resp
        = ⟨200, .withErrors (dataOf (oracle tok) ids) (errsOf (oracle tok) ids)
            "Some batches failed."⟩)
    ∧ (normalizeApi raw = .ok ids → errsOf (oracle tok) ids ≠ [] →
      (handlerApi raw tok oracle).resp
        = ⟨200, .withErrors (dataOf (oracle tok) ids) (errsOf (oracle tok) ids)
            "Some batches failed."⟩)
    ∧ (normalizeServer raw = .ok ids → errsOf (oracle tok) ids ≠ [] →
      (handlerServer raw tok oracle).resp
        = ⟨200, .withErrors (dataOf (oracle tok) ids) (errsOf (oracle tok) ids)
            "Some batches failed to fetch data from Roblox API."⟩) := by
  refine ⟨?_, ?_, ?_⟩
  · intro h hd he
    rw [handler000_ok raw tok oracle ids h]
    exact finish000_some _ _ hd he
  · intro h he
    rw [handlerApi_ok raw tok oracle ids h]
    exact finishApi_errs _ _ he
  · intro h he
    rw [handlerServer_ok raw tok oracle ids h]
    exact finishServer_errs _ _ he

/-- C4, witness: 51 identifiers, first batch succeeds with one record,
second batch fails — `part_000` answers 200 with the record, the failure and
`Some batches failed.`. -/
theorem c4_witness :
    (handler000 (α := Nat) (RawInput.arr (List.replicate 51 "1")) "t"
        (fun _ b => if b.length = 50 then UpResp.ok (Body.arr [1])
          else UpResp.httpErr 404 "NF" "nf")).resp
      = ⟨200, .withErrors
          (dataOf (fun b => if b.length = 50 then UpResp.ok (Body.arr [1])
            else UpResp.httpErr 404 "NF" "nf") (List.replicate 51 "1"))
          (errsOf (fun b => if b.length = 50 then UpResp.ok (Body.arr [1])
            else UpResp.httpErr 404 "NF" "nf") (List.replicate 51 "1"))
          "Some batches failed."⟩ :=
  (c4_amended_theorem (RawInput.arr (List.replicate 51 "1")) "t"
    (fun _ b => if b.length = 50 then UpResp.ok (Body.arr [1])
      else UpResp.httpErr 404 "NF" "nf") (List.replicate 51 "1")).1
    (by decide) (by decide) (by decide)

end EZGameSearch
